import Mathlib

/-!
Verification development for the Parallel-Coordinates repository.

The repository contains two JavaScript source files:
* `src/script.js` — the "generic" pipeline: dimensions are extracted from the
  keys of the first record (`extractDimensions`) and per-column types are
  inferred from the values (`detectDataTypes`), then `drawVisualization`
  renders the chart.
* `src/unnamed/part_000` — the "static" pipeline: dimensions and types come
  from fixed per-dataset tables (`dimensions`, `dataTypes`), and its
  `drawVisualization` body is line-for-line identical to the one in
  `script.js` (same margins, scales, ticks, lines, legend).

Modelling conventions (shallow embedding):
* JavaScript numbers are modelled by `ℚ`.  A non-finite numeric result
  (`NaN`, `Infinity`, `-Infinity`) is modelled by `none : Option ℚ`; this
  collapses the distinctions among non-finite values, which the code never
  relies on (it only ever asks `!isNaN(num) && isFinite(num)`).
* A record (flat JSON object) is an association list from key to `JSValue`;
  a key that is absent models `undefined`, and `JSValue.null` models `null`.
* The JavaScript builtin `Number(v)` is modelled by `jsToNum`, whose string
  case parses optionally signed decimal literals (digits, optional fraction,
  leading/trailing ASCII whitespace, empty string ↦ 0).  Exotic literal
  forms accepted by JavaScript (hexadecimal, exponents, `"Infinity"`) are
  not modelled; they do not occur in the repository's datasets and no claim
  depends on them.
* `String(v)` is modelled by `jsString`; for a non-integer rational it
  produces the exact finite decimal expansion when one of at most 20
  fractional digits exists (every value parsed by `jsToNum` has one).
* Array.prototype.sort's default comparator (lexicographic on the string
  form, by code unit) is modelled by `strLE` on code points; the sort
  itself is modelled by insertion sort on that key.
-/

/-- A JavaScript value occurring in a dataset record: a (finite) number,
a string, or `null`.  `undefined` is modelled by absence of the key. -/
inductive JSValue : Type
  | num (q : ℚ)
  | str (s : String)
  | null
deriving DecidableEq

/-- A flat JSON record: association list from field name to value,
in insertion order (JavaScript object key order). -/
abbrev Record : Type := List (String × JSValue)

/-- Field access `row[dim]`: `none` models `undefined` (key absent). -/
def Record.field (row : Record) (dim : String) : Option JSValue :=
  List.lookup dim row

/-- ASCII whitespace, for the leading/trailing trim performed by
JavaScript's string-to-number conversion. -/
def isWS (c : Char) : Bool :=
  c = ' ' || c = '\t' || c = '\n' || c = '\r'

/-- Trim leading and trailing whitespace from a character list. -/
def trimWS (cs : List Char) : List Char :=
  ((cs.dropWhile isWS).reverse.dropWhile isWS).reverse

/-- Decimal digit value of a character, if it is a digit. -/
def digitVal (c : Char) : Option ℕ :=
  if '0' ≤ c ∧ c ≤ '9' then some (c.toNat - '0'.toNat) else none

/-- Value of a non-empty all-digit character list, `none` otherwise. -/
def digitsVal (cs : List Char) : Option ℕ :=
  if cs.isEmpty then none
  else cs.foldlM (fun acc c => (digitVal c).map (fun d => acc * 10 + d)) 0

/-- Parse an unsigned decimal literal `digits`, `digits.digits`,
`digits.` or `.digits` (as accepted by JavaScript `Number`). -/
def parseDecimal (cs : List Char) : Option ℚ :=
  let ip := cs.takeWhile (· ≠ '.')
  let rest := cs.dropWhile (· ≠ '.')
  match rest with
  | [] => (digitsVal ip).map (fun n => (n : ℚ))
  | _ :: fp =>
    if fp.contains '.' then none
    else if ip.isEmpty ∧ fp.isEmpty then none
    else
      match (if ip.isEmpty then some 0 else digitsVal ip),
            (if fp.isEmpty then some 0 else digitsVal fp) with
      | some i, some f => some ((i : ℚ) + (f : ℚ) / (10 : ℚ) ^ fp.length)
      | _, _ => none

/-- JavaScript `Number(s)` for a string (non-finite / `NaN` ↦ `none`):
trim whitespace, empty ↦ 0, optional sign, decimal literal. -/
def jsStringToNum (s : String) : Option ℚ :=
  match trimWS s.data with
  | [] => some 0
  | '-' :: cs => (parseDecimal cs).map (fun q => -q)
  | '+' :: cs => parseDecimal cs
  | cs => parseDecimal cs

/-- JavaScript `Number(v)`; `none` models a `NaN` or non-finite result, so
`(jsToNum v).isSome` is exactly `!isNaN(Number(v)) && isFinite(Number(v))`. -/
def jsToNum : JSValue → Option ℚ
  | JSValue.num q => some q
  | JSValue.str s => jsStringToNum s
  | JSValue.null => some 0

/-- `extractDimensions` from `src/script.js` (lines 16–20): the keys of the
first record, in insertion order; `[]` for an empty dataset. -/
def extractDimensions (data : List Record) : List String :=
  match data with
  | [] => []
  | row :: _ => row.map Prod.fst

/-- The non-missing values of one column, in record order:
`data.map(d => d[dim]).filter(v => v !== undefined && v !== null)`
(`src/script.js` lines 36–38 and 154–156). -/
def columnValues (data : List Record) (dim : String) : List JSValue :=
  data.filterMap (fun row =>
    match row.field dim with
    | some JSValue.null => none
    | some v => some v
    | none => none)

/-- The numeric-column test of `detectDataTypes` (`src/script.js`
lines 41–46): the non-missing values are non-empty and every one converts
via `Number` to a finite, non-`NaN` number. -/
def isNumericCol (data : List Record) (dim : String) : Bool :=
  let values := columnValues data dim
  values.length > 0 && values.all (fun v => (jsToNum v).isSome)

/-- `detectDataTypes` from `src/script.js` (lines 31–52): map each dimension
to `"numeric"` or `"nominal"`. -/
def detectDataTypes (data : List Record) (dims : List String) :
    List (String × String) :=
  dims.map (fun dim => (dim, if isNumericCol data dim then "numeric" else "nominal"))

/-- `getLineColor` from `src/script.js` lines 64–68 (identical in
`src/unnamed/part_000` lines 51–55). -/
def getLineColor (row : Record) : String :=
  if row.field "gender" = some (JSValue.str "M") then "#1f77b4"
  else if row.field "gender" = some (JSValue.str "F") then "#ff7f0e"
  else "#999"

/-- Smallest number of decimal digits (at most 20) that writes `q` as a
finite decimal fraction, if one exists. -/
def decDigits (q : ℚ) : Option ℕ :=
  (List.range 21).find? (fun k => (q * (10 : ℚ) ^ k).den = 1)

/-- JavaScript `String(v)`.  For numbers, the exact finite decimal expansion
(always exists for values produced by `jsToNum`); strings are themselves;
`String(null)` is `"null"` (never reached: `null` values are filtered out
before any stringification in the source). -/
def jsString : JSValue → String
  | JSValue.num q =>
    if q.den = 1 then toString q.num
    else
      match decDigits q with
      | some k =>
        let m := (q * (10 : ℚ) ^ k).num.natAbs
        let ds := (toString m).data
        let padded := List.replicate (k + 1 - ds.length) '0' ++ ds
        (if q < 0 then "-" else "") ++
          String.mk (padded.take (padded.length - k)) ++ "." ++
          String.mk (padded.drop (padded.length - k))
      | none => toString q
  | JSValue.str s => s
  | JSValue.null => "null"

/-- Lexicographic order on character lists by code point, modelling the
default JavaScript string comparison used by `Array.prototype.sort()`. -/
def charListLE : List Char → List Char → Bool
  | [], _ => true
  | _ :: _, [] => false
  | a :: as, b :: bs => if a = b then charListLE as bs else decide (a < b)

/-- String comparison `a ≤ b` in JavaScript sort order. -/
def strLE (s t : String) : Bool :=
  charListLE s.data t.data

/-- Insert a value into a list sorted by JavaScript string order. -/
def insertValue (v : JSValue) : List JSValue → List JSValue
  | [] => [v]
  | w :: rest =>
    if strLE (jsString v) (jsString w) then v :: w :: rest
    else w :: insertValue v rest

/-- `.sort()` with the default comparator: sort by string form. -/
def sortByString : List JSValue → List JSValue
  | [] => []
  | v :: rest => insertValue v (sortByString rest)

/-- `[...new Set(values)]`: distinct values, first occurrences, in order. -/
def dedupFirst : List JSValue → List JSValue
  | [] => []
  | v :: rest => v :: (dedupFirst rest).filter (· ≠ v)

/-- `[...new Set(data)].sort()` (`src/script.js` line 171): the domain of a
nominal scale. -/
def uniqueSorted (vals : List JSValue) : List JSValue :=
  sortByString (dedupFirst vals)

/-- Coerce every value to a number, `none` if any coercion is non-finite. -/
def mapNums : List JSValue → Option (List ℚ)
  | [] => some []
  | v :: vs =>
    match jsToNum v, mapNums vs with
    | some q, some qs => some (q :: qs)
    | _, _ => none

/-- `Math.min(...data)` and `Math.max(...data)` over the raw column values
(each coerced to a number).  `none` models a non-finite outcome: an empty
spread gives `Infinity`/`-Infinity`, and a non-numeric value gives `NaN`. -/
def numericExtent (vals : List JSValue) : Option (ℚ × ℚ) :=
  match mapNums vals with
  | some (q :: qs) => some (qs.foldl min q, qs.foldl max q)
  | some [] => none
  | none => none

/-- `d3.scaleLinear().domain([dmin, dmax]).range([r0, r1])` applied to `x`:
affine interpolation; for a degenerate domain (`dmax = dmin`) d3's
`normalize` returns the constant 1/2, so every input maps to the midpoint
of the range. -/
def scaleLinear (dmin dmax r0 r1 x : ℚ) : ℚ :=
  if dmax = dmin then r0 + (r1 - r0) / 2
  else r0 + (x - dmin) / (dmax - dmin) * (r1 - r0)

/-- Position of the `i`-th domain element of
`d3.scalePoint().domain(dom).range([r0, r1])` with `dom.length = n`
(d3 band scale with `paddingInner = 1`, `paddingOuter = 0`, `align = 0.5`):
the range is traversed from its smaller to its larger endpoint in steps of
`(hi - lo) / max 1 (n - 1)`, re-reversed when the range is descending;
a single-element domain lands on the midpoint. -/
def scalePointIdx (n : ℕ) (r0 r1 : ℚ) (i : ℕ) : ℚ :=
  let lo := if r1 < r0 then r1 else r0
  let hi := if r1 < r0 then r0 else r1
  let step := (hi - lo) / ((max 1 (n - 1) : ℕ) : ℚ)
  let first := lo + (hi - lo - step * ((n - 1 : ℕ) : ℚ)) / 2
  first + step * (((if r1 < r0 then n - 1 - i else i) : ℕ) : ℚ)

/-- `d3.scalePoint().domain(dom).range([r0, r1])` applied to a value:
position by index in the domain; `none` for a value outside the domain
(never reached by the source, which only applies the scale to domain
members). -/
def scalePoint (dom : List JSValue) (r0 r1 : ℚ) (v : JSValue) : Option ℚ :=
  (dom.findIdx? (· == v)).map (scalePointIdx dom.length r0 r1)

/-- Drawing width (`src/script.js` lines 122–127): the container's client
width minus 40 of padding, minus the left and right margins (180 each),
but at least 100 per dimension. -/
def layoutWidth (dimCount : ℕ) (clientWidth : ℚ) : ℚ :=
  max ((clientWidth - 40) - 180 - 180) ((dimCount : ℚ) * 100)

/-- Drawing height (`src/script.js` lines 128–129):
`Math.max(400, Math.min(600, Math.ceil(records / 15) * 1)) + 200`,
with `Math.ceil` of a natural division written as `(n + 14) / 15`. -/
def layoutHeight (recordCount : ℕ) : ℚ :=
  max 400 (min 600 (((recordCount + 14) / 15 : ℕ) : ℚ)) + 200

/-- Horizontal position of axis `i` of `n` (`src/script.js` line 180):
`width / (n - 1) * i`, with real subtraction in the denominator.  The
rational model sends the degenerate single-dimension division by zero to
0 where JavaScript yields `NaN`; no claim concerns a one-column dataset. -/
def xPos (width : ℚ) (n i : ℕ) : ℚ :=
  width / ((n : ℚ) - 1) * (i : ℚ)

/-- `tick.toFixed(2)` for a non-negative number: round `q * 100` to the
nearest integer (ties up) and print with two decimals. -/
def toFixed2Abs (q : ℚ) : String :=
  let n := (Rat.floor (q * 100 + 1 / 2)).toNat
  let ds := (toString n).data
  let padded := List.replicate (3 - ds.length) '0' ++ ds
  String.mk (padded.take (padded.length - 2)) ++ "." ++
    String.mk (padded.drop (padded.length - 2))

/-- JavaScript `Number.prototype.toFixed(2)`. -/
def toFixed2 (q : ℚ) : String :=
  if q < 0 then "-" ++ toFixed2Abs (-q) else toFixed2Abs q

/-- The scale built for one dimension inside `drawVisualization`
(`src/script.js` lines 152–174), as the value-to-position function it is
later applied to.  Numeric: linear over the extent of the non-missing
column values (d3 coerces the applied value with `+x`, modelled by
`jsToNum`; a `NaN` anywhere gives `none`).  Otherwise: point scale over
the distinct sorted non-missing values. -/
def dimScale (types : List (String × String)) (data : List Record)
    (height : ℚ) (dim : String) (v : JSValue) : Option ℚ :=
  let vals := columnValues data dim
  if types.lookup dim = some "numeric" then
    match numericExtent vals, jsToNum v with
    | some (dmin, dmax), some x => some (scaleLinear dmin dmax height 0 x)
    | _, _ => none
  else
    scalePoint (uniqueSorted vals) height 0 v

/-- The five tick values of a numeric axis (`src/script.js` lines 212–218):
min, 25%, 50%, 75%, max of the value range. -/
def numericTicks (dmin dmax : ℚ) : List ℚ :=
  [dmin,
   dmin + (dmax - dmin) * (1 / 4),
   dmin + (dmax - dmin) * (1 / 2),
   dmin + (dmax - dmin) * (3 / 4),
   dmax]

/-- The tick marks of one axis as (position, label) pairs
(`src/script.js` lines 206–275).  Numeric: five ticks labelled with
`toFixed(2)`; a non-finite extent (never reached from inferred types)
yields five ticks with non-finite positions, collapsed to `(none, "NaN")`.
Nominal: one tick per domain value, labelled with its string form. -/
def axisTicks (types : List (String × String)) (data : List Record)
    (height : ℚ) (dim : String) : List (Option ℚ × String) :=
  let vals := columnValues data dim
  if types.lookup dim = some "numeric" then
    match numericExtent vals with
    | some (dmin, dmax) =>
      (numericTicks dmin dmax).map
        (fun t => (some (scaleLinear dmin dmax height 0 t), toFixed2 t))
    | none => List.replicate 5 ((none : Option ℚ), "NaN")
  else
    (uniqueSorted vals).map
      (fun v => (scalePoint (uniqueSorted vals) height 0 v, jsString v))

/-- One rendered axis: its horizontal position (also the endpoints of its
vertical line), its label text, and its tick marks. -/
structure AxisRender where
  x : ℚ
  label : String
  ticks : List (Option ℚ × String)
deriving DecidableEq

/-- The geometric content `drawVisualization` emits into the SVG: layout
size, the axes in order, one polyline (vertex list, as traced by the
`M`/`L` path commands, plus stroke color) per drawn record, and the record
count shown next to the legend.  The legend itself is constant. -/
structure RenderOutput where
  width : ℚ
  height : ℚ
  axes : List AxisRender
  lines : List (List (ℚ × Option ℚ) × String)
  recordCount : ℕ
deriving DecidableEq

/-- The vertex list of one record's polyline (`src/script.js` lines
283–297): walk the dimensions in order, and for each value that is neither
`undefined` nor `null` push the point at that axis' horizontal position
and the scaled vertical position. -/
def rowPoints (dims : List String) (types : List (String × String))
    (data : List Record) (width height : ℚ) (row : Record) :
    List (ℚ × Option ℚ) :=
  dims.enum.foldl
    (fun pts p =>
      match row.field p.2 with
      | some JSValue.null => pts
      | none => pts
      | some v =>
        pts ++ [(xPos width dims.length p.1, dimScale types data height p.2 v)])
    []

/-- `drawVisualization` (`src/script.js` lines 111–377; the body in
`src/unnamed/part_000` lines 72–298 is identical), parametrized by where
its dimension list and type table come from and by the container's
reported client width. -/
def drawVisualization (dims : List String) (types : List (String × String))
    (data : List Record) (clientWidth : ℚ) : RenderOutput :=
  let width := layoutWidth dims.length clientWidth
  let height := layoutHeight data.length
  { width := width
    height := height
    axes := dims.enum.map (fun p =>
      { x := xPos width dims.length p.1
        label := p.2
        ticks := axisTicks types data height p.2 })
    lines := data.filterMap (fun row =>
      let pts := rowPoints dims types data width height row
      if 1 < pts.length then some (pts, getLineColor row) else none)
    recordCount := data.length }

/-- The static dimension table of `src/unnamed/part_000` (lines 7–26). -/
def staticDimensions (year : ℕ) : List String :=
  if year = 2012 then
    ["gpa", "credits_attempted", "credits_passed", "current_credits",
     "age", "gender"]
  else if year = 2019 then
    ["gender", "age_range", "credits_attempted", "credits_passed",
     "gpa", "grad_year", "home", "major"]
  else []

/-- The static data-type table of `src/unnamed/part_000` (lines 29–48). -/
def staticDataTypes (year : ℕ) : List (String × String) :=
  if year = 2012 then
    [("gpa", "numeric"), ("credits_attempted", "numeric"),
     ("credits_passed", "numeric"), ("current_credits", "numeric"),
     ("age", "numeric"), ("gender", "nominal")]
  else if year = 2019 then
    [("gender", "nominal"), ("age_range", "nominal"),
     ("credits_attempted", "numeric"), ("credits_passed", "numeric"),
     ("gpa", "numeric"), ("grad_year", "numeric"),
     ("home", "nominal"), ("major", "nominal")]
  else []

/-- The generic pipeline of `src/script.js`: extract the dimensions from the
data, infer the types, draw. -/
def genericRender (data : List Record) (clientWidth : ℚ) : RenderOutput :=
  drawVisualization (extractDimensions data)
    (detectDataTypes data (extractDimensions data)) data clientWidth

/-- The static pipeline of `src/unnamed/part_000`: fixed dimension and type
tables for the dataset identifier, same `drawVisualization`. -/
def staticRender (year : ℕ) (data : List Record) (clientWidth : ℚ) :
    RenderOutput :=
  drawVisualization (staticDimensions year) (staticDataTypes year) data
    clientWidth

/-- Content of the `#visualization` container after a load attempt: the
rendered chart, or the error markup installed by the `catch` block. -/
inductive VizContent : Type
  | rendered (r : RenderOutput)
  | errorMessage (html : String)
deriving DecidableEq

/-- The error markup `loadDataset` installs on failure
(`src/script.js` lines 95–96). -/
def errorHTML : String :=
  "<p style=\"color: red;\">Error loading dataset</p>"

/-- The module-level mutable state of `src/script.js` (lines 1–4) together
with the visualization container's content. -/
structure AppState where
  currentDataset : Option ℕ
  currentData : List Record
  currentDimensions : List String
  currentDataTypes : List (String × String)
  viz : VizContent
deriving DecidableEq

/-- Outcome of `fetch` + `response.json()`: parsed records, or a thrown
network/parse error. -/
def FetchResult : Type := Except Unit (List Record)

/-- `loadDataset` from `src/script.js` (lines 79–98): on success, overwrite
the dataset identifier, data, dimensions and types, then draw; the `catch`
block turns any fetch/parse failure into the error markup, before any of
the state assignments have run. -/
def loadDataset (st : AppState) (year : ℕ) (res : FetchResult)
    (clientWidth : ℚ) : AppState :=
  match res with
  | Except.ok records =>
    let dims := extractDimensions records
    let types := detectDataTypes records dims
    { currentDataset := some year
      currentData := records
      currentDimensions := dims
      currentDataTypes := types
      viz := VizContent.rendered (drawVisualization dims types records clientWidth) }
  | Except.error _ =>
    { st with viz := VizContent.errorMessage errorHTML }

/-- The debounced resize handler (`src/script.js` lines 405–413), after the
first resize event of a burst has armed the timer at `pending`.  Each later
event at time `t` either cancels and reschedules (`t` strictly before the
pending deadline `pending + 250`) or arrives after the timer fired.  A
fired timer redraws only when a dataset is loaded; the redraw reads the
container width at firing time (`w`).  Returns the (time, observed width)
of every redraw. -/
def debounceRun (hasData : Bool) (w : ℚ → ℚ) (pending : ℚ) :
    List ℚ → List (ℚ × ℚ)
  | [] =>
    if hasData then [(pending + 250, w (pending + 250))] else []
  | t :: rest =>
    if t < pending + 250 then debounceRun hasData w t rest
    else
      (if hasData then [(pending + 250, w (pending + 250))] else []) ++
        debounceRun hasData w t rest

/-- All redraws triggered by a sequence of resize events at the given
times: none when there are no events; otherwise the first event arms the
timer and the rest are processed by `debounceRun`. -/
def resizeRedraws (hasData : Bool) (w : ℚ → ℚ) :
    List ℚ → List (ℚ × ℚ)
  | [] => []
  | t :: rest => debounceRun hasData w t rest

/-- A one-record dataset shaped like the 2012 dataset. -/
def sample2012 : List Record :=
  [[("gpa", JSValue.num 3), ("credits_attempted", JSValue.num 30),
    ("credits_passed", JSValue.num 28), ("current_credits", JSValue.num 15),
    ("age", JSValue.num 22), ("gender", JSValue.str "M")]]

/-- A three-record dataset whose only column `"a"` holds 2.0, 3.0, 4.0. -/
def data234 : List Record :=
  [[("a", JSValue.num 2)], [("a", JSValue.num 3)], [("a", JSValue.num 4)]]

/-- A type table declaring the single column `"a"` numeric. -/
def types234 : List (String × String) :=
  [("a", "numeric")]

/-! ### Helper lemmas -/

theorem lookup_map_self (dims : List String) (f : String → String)
    (dim : String) (h : dim ∈ dims) :
    (dims.map (fun d => (d, f d))).lookup dim = some (f dim) := by
  induction dims with
  | nil => cases h
  | cons d ds ih =>
    by_cases hd : dim = d
    · subst hd; simp [List.lookup]
    · have hmem : dim ∈ ds := by
        rcases List.mem_cons.mp h with h1 | h2
        · exact absurd h1 hd
        · exact h2
      have hne : (dim == d) = false := beq_eq_false_iff_ne.mpr hd
      simpa [List.lookup, hne] using ih hmem

theorem isNumericCol_iff (data : List Record) (dim : String) :
    isNumericCol data dim = true ↔
      columnValues data dim ≠ [] ∧
        ∀ v ∈ columnValues data dim, (jsToNum v).isSome = true := by
  simp [isNumericCol, List.all_eq_true, List.length_pos]

theorem mapNums_of_all (vals : List JSValue)
    (h : ∀ v ∈ vals, (jsToNum v).isSome = true) :
    ∃ qs, mapNums vals = some qs ∧ qs.length = vals.length := by
  induction vals with
  | nil => exact ⟨[], rfl, rfl⟩
  | cons v vs ih =>
    obtain ⟨q, hq⟩ := Option.isSome_iff_exists.mp (h v (List.mem_cons_self v vs))
    obtain ⟨qs, hqs, hlen⟩ := ih (fun w hw => h w (List.mem_cons_of_mem v hw))
    exact ⟨q :: qs, by simp [mapNums, hq, hqs], by simp [hlen]⟩

/-! ### Claims -/

/-- Claim C1: whenever the first record's keys equal, in order, the static
dimension list for the dataset identifier, and the inferred column types
equal the static per-dataset type table, the generic pipeline
(`extractDimensions` + `detectDataTypes` + `drawVisualization` in
`src/script.js`) and the static pipeline (fixed tables +
`drawVisualization` in `src/unnamed/part_000`) produce identical rendered
output — the same layout, axes, tick marks, tick labels, polylines and
colors. -/
theorem c1_generic_refines_static (year : ℕ) (data : List Record)
    (clientWidth : ℚ)
    (hdims : extractDimensions data = staticDimensions year)
    (htypes : detectDataTypes data (staticDimensions year) =
      staticDataTypes year) :
    genericRender data clientWidth = staticRender year data clientWidth := by
  unfold genericRender staticRender
  rw [hdims, htypes]

/-- Witness for C1 at a concrete dataset matching the 2012 static tables. -/
theorem c1_generic_refines_static_witness :
    extractDimensions sample2012 = staticDimensions 2012 ∧
    detectDataTypes sample2012 (staticDimensions 2012) =
      staticDataTypes 2012 ∧
    genericRender sample2012 1000 = staticRender 2012 sample2012 1000 :=
  ⟨by decide, by decide,
    c1_generic_refines_static 2012 sample2012 1000 (by decide) (by decide)⟩

/-- Claim C7: when the fetch or the JSON parse of a dataset fails,
`loadDataset` catches the error (the transition is total and ends in the
`catch` branch), replaces the visualization container's content with the
visible error markup, and leaves every piece of prior visualization state
— `currentDataset`, `currentData`, `currentDimensions`,
`currentDataTypes` — exactly as it was. -/
theorem c7_load_failure_state (st : AppState) (year : ℕ) (clientWidth : ℚ) :
    (loadDataset st year (Except.error ()) clientWidth).currentDataset =
        st.currentDataset ∧
    (loadDataset st year (Except.error ()) clientWidth).currentData =
        st.currentData ∧
    (loadDataset st year (Except.error ()) clientWidth).currentDimensions =
        st.currentDimensions ∧
    (loadDataset st year (Except.error ()) clientWidth).currentDataTypes =
        st.currentDataTypes ∧
    (loadDataset st year (Except.error ()) clientWidth).viz =
        VizContent.errorMessage errorHTML :=
  ⟨rfl, rfl, rfl, rfl, rfl⟩

/-- Claim C2: `detectDataTypes` labels a dimension `"numeric"` exactly when
its non-missing values are non-empty and every one converts via `Number`
to a finite, non-`NaN` number, and `"nominal"` otherwise; in particular a
dimension all of whose values are missing is labelled `"nominal"`. -/
theorem c2_detect_types (data : List Record) (dims : List String)
    (dim : String) (h : dim ∈ dims) :
    ((detectDataTypes data dims).lookup dim =
      some (if columnValues data dim ≠ [] ∧
               ∀ v ∈ columnValues data dim, (jsToNum v).isSome = true
            then "numeric" else "nominal")) ∧
    (columnValues data dim = [] →
      (detectDataTypes data dims).lookup dim = some "nominal") := by
  have hlk : (detectDataTypes data dims).lookup dim =
      some (if isNumericCol data dim then "numeric" else "nominal") :=
    lookup_map_self dims
      (fun d => if isNumericCol data d then "numeric" else "nominal") dim h
  have hiff := isNumericCol_iff data dim
  constructor
  · rw [hlk]
    by_cases hc : columnValues data dim ≠ [] ∧
        ∀ v ∈ columnValues data dim, (jsToNum v).isSome = true
    · rw [if_pos (hiff.mpr hc), if_pos hc]
    · rw [if_neg (fun hb => hc (hiff.mp hb)), if_neg hc]
  · intro hempty
    rw [hlk, if_neg]
    intro hb
    exact (hiff.mp hb).1 hempty

/-- Witness for C2 at a concrete one-record dataset. -/
theorem c2_detect_types_witness :
    "a" ∈ ["a", "b"] ∧
    (((detectDataTypes [[("a", JSValue.num 1)]] ["a", "b"]).lookup "a" =
      some (if columnValues [[("a", JSValue.num 1)]] "a" ≠ [] ∧
               ∀ v ∈ columnValues [[("a", JSValue.num 1)]] "a",
                 (jsToNum v).isSome = true
            then "numeric" else "nominal")) ∧
    (columnValues [[("a", JSValue.num 1)]] "a" = [] →
      (detectDataTypes [[("a", JSValue.num 1)]] ["a", "b"]).lookup "a" =
        some "nominal")) :=
  ⟨by decide, c2_detect_types [[("a", JSValue.num 1)]] ["a", "b"] "a" (by decide)⟩

/-- Claim C10: whenever `detectDataTypes` labels a dimension `"numeric"`,
that dimension has at least one non-missing value, and every value coerces
to a finite number, so the `Math.min`/`Math.max` extent of the numeric
scale exists as a pair of finite bounds (in the model: `numericExtent` is
`some` rather than the empty-spread degenerate). -/
theorem c10_numeric_extent_finite (data : List Record) (dim : String)
    (h : isNumericCol data dim = true) :
    columnValues data dim ≠ [] ∧
      ∃ dmin dmax, numericExtent (columnValues data dim) =
        some (dmin, dmax) := by
  obtain ⟨hne, hall⟩ := (isNumericCol_iff data dim).mp h
  obtain ⟨qs, hqs, hlen⟩ := mapNums_of_all _ hall
  refine ⟨hne, ?_⟩
  cases qs with
  | nil =>
    exact absurd (List.length_eq_zero.mp hlen.symm) hne
  | cons q rest =>
    exact ⟨rest.foldl min q, rest.foldl max q, by simp [numericExtent, hqs]⟩

/-- Witness for C10 at a concrete one-record dataset. -/
theorem c10_numeric_extent_finite_witness :
    isNumericCol [[("a", JSValue.num 1)], [("a", JSValue.num 5)]] "a" = true ∧
    (columnValues [[("a", JSValue.num 1)], [("a", JSValue.num 5)]] "a" ≠ [] ∧
      ∃ dmin dmax,
        numericExtent
          (columnValues [[("a", JSValue.num 1)], [("a", JSValue.num 5)]] "a") =
          some (dmin, dmax)) :=
  ⟨by decide,
    c10_numeric_extent_finite [[("a", JSValue.num 1)], [("a", JSValue.num 5)]]
      "a" (by decide)⟩

/-- Claim C5: for a numeric dimension whose non-missing values have
`min = max`, building and evaluating the scale is total (no division by
zero is performed: d3's degenerate branch is taken) and the scale maps
every number in its domain — indeed every finite input — to the single
finite constant position `height / 2`. -/
theorem c5_degenerate_numeric_scale (types : List (String × String))
    (data : List Record) (height : ℚ) (dim : String) (q : ℚ)
    (htype : types.lookup dim = some "numeric")
    (hext : numericExtent (columnValues data dim) = some (q, q)) :
    ∀ v x, jsToNum v = some x →
      dimScale types data height dim v = some (height / 2) := by
  intro v x hx
  simp only [dimScale, htype, if_pos, hext, hx, scaleLinear, if_pos rfl]
  exact congrArg some (by ring)

/-- Witness for C5: a column with the constant value 5. -/
theorem c5_degenerate_numeric_scale_witness :
    ([("a", "numeric")] : List (String × String)).lookup "a" =
        some "numeric" ∧
    numericExtent
        (columnValues [[("a", JSValue.num 5)], [("a", JSValue.num 5)]] "a") =
      some (5, 5) ∧
    ∀ v x, jsToNum v = some x →
      dimScale [("a", "numeric")] [[("a", JSValue.num 5)], [("a", JSValue.num 5)]]
        300 "a" v = some (300 / 2) :=
  ⟨by decide, by decide,
    c5_degenerate_numeric_scale [("a", "numeric")]
      [[("a", JSValue.num 5)], [("a", JSValue.num 5)]] 300 "a" 5
      (by decide) (by decide)⟩

/-- Claim C3: for a numeric dimension the scale's domain is the
`[min, max]` extent of the non-missing values, and the scale is the affine
map sending `min` to `height`, `max` to `0`, interpolating linearly in
between (at fraction `t` of the range it returns `height - t * height`);
in particular for the values `[2.0, 3.0, 4.0]` it sends 2.0 to `height`,
3.0 to `height / 2` and 4.0 to `0`. -/
theorem c3_numeric_scale_affine (types : List (String × String))
    (data : List Record) (height : ℚ) (dim : String) (dmin dmax : ℚ)
    (htype : types.lookup dim = some "numeric")
    (hext : numericExtent (columnValues data dim) = some (dmin, dmax))
    (hlt : dmin < dmax) :
    dimScale types data height dim (JSValue.num dmin) = some height ∧
    dimScale types data height dim (JSValue.num dmax) = some 0 ∧
    (∀ t : ℚ, dimScale types data height dim
        (JSValue.num (dmin + t * (dmax - dmin))) = some (height - t * height)) ∧
    (∀ h2 : ℚ,
      dimScale types234 data234 h2 "a" (JSValue.num 2) = some h2 ∧
      dimScale types234 data234 h2 "a" (JSValue.num 3) = some (h2 / 2) ∧
      dimScale types234 data234 h2 "a" (JSValue.num 4) = some 0) := by
  have hne : dmax - dmin ≠ 0 := sub_ne_zero.mpr hlt.ne'
  have hscale : ∀ x : ℚ, dimScale types data height dim (JSValue.num x) =
      some (scaleLinear dmin dmax height 0 x) := by
    intro x
    simp only [dimScale, htype, if_pos, hext, jsToNum]
  refine ⟨?_, ?_, ?_, ?_⟩
  · rw [hscale, scaleLinear, if_neg hlt.ne']
    exact congrArg some (by ring)
  · rw [hscale, scaleLinear, if_neg hlt.ne', div_self hne]
    exact congrArg some (by ring)
  · intro t
    rw [hscale, scaleLinear, if_neg hlt.ne', add_sub_cancel_left,
      mul_div_assoc, div_self hne]
    exact congrArg some (by ring)
  · intro h2
    have hext2 : numericExtent (columnValues data234 "a") = some (2, 4) := by
      decide
    have hlook : types234.lookup "a" = some "numeric" := by decide
    have hscale2 : ∀ x : ℚ, dimScale types234 data234 h2 "a" (JSValue.num x) =
        some (scaleLinear 2 4 h2 0 x) := by
      intro x
      simp only [dimScale, hlook, if_pos, hext2, jsToNum]
    have h42 : (4 : ℚ) ≠ 2 := by norm_num
    refine ⟨?_, ?_, ?_⟩
    · rw [hscale2, scaleLinear, if_neg h42]
      exact congrArg some (by ring)
    · rw [hscale2, scaleLinear, if_neg h42]
      exact congrArg some (by ring)
    · rw [hscale2, scaleLinear, if_neg h42]
      exact congrArg some (by ring)

/-- Witness for C3 at the dataset `[2.0, 3.0, 4.0]` with height 600. -/
theorem c3_numeric_scale_affine_witness :
    types234.lookup "a" = some "numeric" ∧
    numericExtent (columnValues data234 "a") = some (2, 4) ∧
    (2 : ℚ) < 4 ∧
    dimScale types234 data234 600 "a" (JSValue.num 2) = some 600 ∧
    dimScale types234 data234 600 "a" (JSValue.num 4) = some 0 :=
  ⟨by decide, by decide, by norm_num,
    (c3_numeric_scale_affine types234 data234 600 "a" 2 4
      (by decide) (by decide) (by norm_num)).1,
    (c3_numeric_scale_affine types234 data234 600 "a" 2 4
      (by decide) (by decide) (by norm_num)).2.1⟩

theorem debounceRun_no_dataset (w : ℚ → ℚ) (pending : ℚ) (ts : List ℚ) :
    debounceRun false w pending ts = [] := by
  induction ts generalizing pending with
  | nil => rfl
  | cons t rest ih =>
    by_cases h : t < pending + 250
    · simp [debounceRun, h, ih]
    · simp [debounceRun, h, ih]

theorem debounceRun_burst (w : ℚ → ℚ) (pending : ℚ) (ts : List ℚ)
    (h : List.Chain (fun a b => a ≤ b ∧ b < a + 250) pending ts) :
    debounceRun true w pending ts =
      [(ts.getLastD pending + 250, w (ts.getLastD pending + 250))] := by
  induction ts generalizing pending with
  | nil => rfl
  | cons t rest ih =>
    obtain ⟨⟨hle, hlt⟩, hchain⟩ := List.chain_cons.mp h
    simp only [debounceRun, if_pos hlt, List.getLastD_cons]
    exact ih t hchain

/-- Claim C9: a burst of resize events in which every gap between
consecutive events is shorter than the 250 ms debounce window triggers,
when a dataset is loaded, exactly one redraw — 250 ms after the last event
of the burst, reading the container width at that moment — and, when no
dataset is loaded, no redraw at all. -/
theorem c9_debounced_resize (w : ℚ → ℚ) (t : ℚ) (rest : List ℚ)
    (h : List.Chain (fun a b => a ≤ b ∧ b < a + 250) t rest) :
    resizeRedraws true w (t :: rest) =
      [(rest.getLastD t + 250, w (rest.getLastD t + 250))] ∧
    resizeRedraws false w (t :: rest) = [] := by
  exact ⟨debounceRun_burst w t rest h, debounceRun_no_dataset w t rest⟩

/-- Witness for C9: five events inside 100 ms; the single redraw happens at
290 ms and observes the width at that time. -/
theorem c9_debounced_resize_witness :
    List.Chain (fun a b : ℚ => a ≤ b ∧ b < a + 250) 0 [10, 20, 30, 40] ∧
    resizeRedraws true (fun time => 2 * time) (0 :: [10, 20, 30, 40]) =
      [(40 + 250, 2 * (40 + 250))] ∧
    resizeRedraws false (fun time => 2 * time) (0 :: [10, 20, 30, 40]) = [] := by
  have hchain : List.Chain (fun a b : ℚ => a ≤ b ∧ b < a + 250)
      0 [10, 20, 30, 40] := by
    norm_num [List.chain_cons]
  exact ⟨hchain,
    (c9_debounced_resize (fun time => 2 * time) 0 [10, 20, 30, 40] hchain).1,
    (c9_debounced_resize (fun time => 2 * time) 0 [10, 20, 30, 40] hchain).2⟩

theorem drawVisualization_height (dims : List String)
    (types : List (String × String)) (data : List Record)
    (clientWidth : ℚ) :
    (drawVisualization dims types data clientWidth).height =
      layoutHeight data.length := rfl

/-- Counterexample to Claim C8 as stated: at 6001 records the code's height
is `max(400, min(600, ceil(6001 / 15))) + 200 = 601`, while the claim's
formula `max(400, min(600, 6001 / 15)) + 200` gives `9001 / 15 ≈ 600.07`;
the claim omits the `Math.ceil` the code applies to `recordCount / 15`. -/
theorem c8_height_counterexample :
    (drawVisualization ["a"] [("a", "nominal")]
        (List.replicate 6001 ([] : Record)) 800).height ≠
      max 400 (min 600
        (((List.replicate 6001 ([] : Record)).length : ℚ) / 15)) + 200 := by
  have hlen : (List.replicate 6001 ([] : Record)).length = 6001 :=
    List.length_replicate 6001 ([] : Record)
  rw [drawVisualization_height, hlen, layoutHeight]
  have e1 : ((6001 + 14) / 15 : ℕ) = 401 := by norm_num
  rw [e1]
  have c1 : ((401 : ℕ) : ℚ) = 401 := by norm_num
  have c2 : ((6001 : ℕ) : ℚ) = 6001 := by norm_num
  rw [c1, c2]
  have m1 : min (600 : ℚ) 401 = 401 := min_eq_right (by norm_num)
  have m2 : max (400 : ℚ) 401 = 401 := max_eq_right (by norm_num)
  have m3 : min (600 : ℚ) (6001 / 15) = 6001 / 15 := min_eq_right (by norm_num)
  have m4 : max (400 : ℚ) (6001 / 15) = 6001 / 15 := max_eq_right (by norm_num)
  rw [m1, m2, m3, m4]
  norm_num

/-- Claim C8 (amended): on every redraw the drawing width is
`max(containerWidth - leftMargin - rightMargin, dimensionCount * 100)`
with `containerWidth` the container's client width minus 40 of padding and
margins of 180 each, and the drawing height is
`max(400, min(600, ceil(recordCount / 15))) + 200` — the code applies
`Math.ceil` to `recordCount / 15` before clamping (the original claim
omitted the ceiling); consequently the vertical extent is always clamped
between 600 and 800. -/
theorem c8_layout_formulas (dims : List String)
    (types : List (String × String)) (data : List Record)
    (clientWidth : ℚ) :
    (drawVisualization dims types data clientWidth).width =
      max ((clientWidth - 40) - 180 - 180) ((dims.length : ℚ) * 100) ∧
    (drawVisualization dims types data clientWidth).height =
      max 400 (min 600 (((data.length + 14) / 15 : ℕ) : ℚ)) + 200 ∧
    600 ≤ (drawVisualization dims types data clientWidth).height ∧
    (drawVisualization dims types data clientWidth).height ≤ 800 := by
  refine ⟨rfl, rfl, ?_, ?_⟩
  · have h1 : (400 : ℚ) ≤ max 400 (min 600 (((data.length + 14) / 15 : ℕ) : ℚ)) :=
      le_max_left _ _
    show (600 : ℚ) ≤ max 400 (min 600 (((data.length + 14) / 15 : ℕ) : ℚ)) + 200
    linarith
  · have h2 : max 400 (min 600 (((data.length + 14) / 15 : ℕ) : ℚ)) ≤ 600 :=
      max_le (by norm_num) (min_le_left _ _)
    show max 400 (min 600 (((data.length + 14) / 15 : ℕ) : ℚ)) + 200 ≤ 800
    linarith

theorem rowPoints_eq_filterMap (dims : List String)
    (types : List (String × String)) (data : List Record)
    (width height : ℚ) (row : Record) :
    rowPoints dims types data width height row =
      dims.enum.filterMap (fun p =>
        match row.field p.2 with
        | some JSValue.null => none
        | none => none
        | some v =>
          some (xPos width dims.length p.1,
            dimScale types data height p.2 v)) := by
  unfold rowPoints
  suffices h : ∀ (ps : List (ℕ × String)) (acc : List (ℚ × Option ℚ)),
      (ps.foldl (fun pts p =>
        match row.field p.2 with
        | some JSValue.null => pts
        | none => pts
        | some v =>
          pts ++ [(xPos width dims.length p.1,
            dimScale types data height p.2 v)]) acc) =
      acc ++ ps.filterMap (fun p =>
        match row.field p.2 with
        | some JSValue.null => none
        | none => none
        | some v =>
          some (xPos width dims.length p.1,
            dimScale types data height p.2 v)) by
    simpa using h dims.enum []
  intro ps
  induction ps with
  | nil => intro acc; simp
  | cons p ps ih =>
    intro acc
    cases hf : row.field p.2 with
    | none => simp [List.foldl_cons, hf, ih]
    | some v =>
      cases v with
      | null => simp [List.foldl_cons, hf, ih]
      | num q => simp [List.foldl_cons, hf, ih]
      | str s => simp [List.foldl_cons, hf, ih]

/-- Claim C6: the rendered polylines are exactly one per record with at
least 2 present values; each polyline has exactly one vertex per dimension
whose value is present (neither `undefined` nor `null`), placed at that
dimension's horizontal position, with vertices in dimension order (the
vertex list is the path's `M`/`L` sequence, so consecutive present
vertices are joined by straight segments and missing dimensions are
skipped); a record with fewer than 2 present values contributes no path
element at all. -/
theorem c6_record_polylines (dims : List String)
    (types : List (String × String)) (data : List Record)
    (clientWidth : ℚ) :
    (drawVisualization dims types data clientWidth).lines =
      data.filterMap (fun row =>
        let pts := dims.enum.filterMap (fun p =>
          match row.field p.2 with
          | some JSValue.null => none
          | none => none
          | some v =>
            some (xPos (layoutWidth dims.length clientWidth) dims.length p.1,
              dimScale types data (layoutHeight data.length) p.2 v))
        if 1 < pts.length then some (pts, getLineColor row) else none) := by
  show data.filterMap _ = data.filterMap _
  refine List.filterMap_congr (fun row _ => ?_)
  rw [rowPoints_eq_filterMap]

theorem charListLE_trans (as bs cs : List Char) (h1 : charListLE as bs = true)
    (h2 : charListLE bs cs = true) : charListLE as cs = true := by
  induction as generalizing bs cs with
  | nil => rfl
  | cons a as ih =>
    cases bs with
    | nil => simp [charListLE] at h1
    | cons b bs =>
      cases cs with
      | nil => simp [charListLE] at h2
      | cons c cs =>
        by_cases hab : a = b
        · subst hab
          rw [charListLE, if_pos rfl] at h1
          by_cases hac : a = c
          · subst hac
            rw [charListLE, if_pos rfl] at h2 ⊢
            exact ih bs cs h1 h2
          · rw [charListLE, if_neg hac] at h2 ⊢
            exact h2
        · rw [charListLE, if_neg hab] at h1
          have hlt1 : a < b := of_decide_eq_true h1
          by_cases hbc : b = c
          · subst hbc
            rw [charListLE, if_neg hab]
            exact decide_eq_true hlt1
          · rw [charListLE, if_neg hbc] at h2
            have hlt2 : b < c := of_decide_eq_true h2
            have hltac : a < c := lt_trans hlt1 hlt2
            rw [charListLE, if_neg (ne_of_lt hltac)]
            exact decide_eq_true hltac

theorem charListLE_total (as bs : List Char) :
    charListLE as bs = true ∨ charListLE bs as = true := by
  induction as generalizing bs with
  | nil => left; rfl
  | cons a as ih =>
    cases bs with
    | nil => right; rfl
    | cons b bs =>
      by_cases hab : a = b
      · subst hab
        rcases ih bs with h | h
        · left; rw [charListLE, if_pos rfl]; exact h
        · right; rw [charListLE, if_pos rfl]; exact h
      · rcases lt_or_gt_of_ne hab with h | h
        · left
          rw [charListLE, if_neg hab]
          exact decide_eq_true h
        · right
          rw [charListLE, if_neg (Ne.symm hab)]
          exact decide_eq_true h

theorem insertValue_perm (v : JSValue) (l : List JSValue) :
    (insertValue v l).Perm (v :: l) := by
  induction l with
  | nil => exact List.Perm.refl _
  | cons w rest ih =>
    by_cases hvw : strLE (jsString v) (jsString w) = true
    · rw [insertValue, if_pos hvw]
    · rw [insertValue, if_neg hvw]
      exact (List.Perm.cons w ih).trans (List.Perm.swap v w rest)

theorem sortByString_perm (l : List JSValue) : (sortByString l).Perm l := by
  induction l with
  | nil => exact List.Perm.refl _
  | cons v rest ih =>
    exact (insertValue_perm v (sortByString rest)).trans (List.Perm.cons v ih)

theorem insertValue_pairwise (v : JSValue) (l : List JSValue)
    (hs : List.Pairwise (fun a b => strLE (jsString a) (jsString b) = true) l) :
    List.Pairwise (fun a b => strLE (jsString a) (jsString b) = true)
      (insertValue v l) := by
  induction l with
  | nil => simp [insertValue]
  | cons w rest ih =>
    obtain ⟨hw, hrest⟩ := List.pairwise_cons.mp hs
    by_cases hvw : strLE (jsString v) (jsString w) = true
    · rw [insertValue, if_pos hvw]
      refine List.pairwise_cons.mpr ⟨?_, hs⟩
      intro b hb
      rcases List.mem_cons.mp hb with rfl | hb
      · exact hvw
      · exact charListLE_trans _ _ _ hvw (hw b hb)
    · rw [insertValue, if_neg hvw]
      refine List.pairwise_cons.mpr ⟨?_, ih hrest⟩
      intro b hb
      have hwv : strLE (jsString w) (jsString v) = true := by
        rcases charListLE_total (jsString v).data (jsString w).data with h | h
        · exact absurd h hvw
        · exact h
      rcases List.mem_cons.mp ((insertValue_perm v rest).mem_iff.mp hb) with rfl | h
      · exact hwv
      · exact hw b h

theorem sortByString_pairwise (l : List JSValue) :
    List.Pairwise (fun a b => strLE (jsString a) (jsString b) = true)
      (sortByString l) := by
  induction l with
  | nil => simp [sortByString]
  | cons v rest ih => exact insertValue_pairwise v (sortByString rest) ih

theorem mem_dedupFirst (v : JSValue) (l : List JSValue) :
    v ∈ dedupFirst l ↔ v ∈ l := by
  induction l with
  | nil => simp [dedupFirst]
  | cons w rest ih =>
    simp only [dedupFirst, List.mem_cons, List.mem_filter]
    constructor
    · rintro (rfl | ⟨hv, _⟩)
      · exact Or.inl rfl
      · exact Or.inr (ih.mp hv)
    · rintro (rfl | hv)
      · exact Or.inl rfl
      · by_cases hvw : v = w
        · exact Or.inl hvw
        · exact Or.inr ⟨ih.mpr hv, by simpa using hvw⟩

theorem nodup_dedupFirst (l : List JSValue) : (dedupFirst l).Nodup := by
  induction l with
  | nil => simp [dedupFirst]
  | cons w rest ih =>
    rw [dedupFirst]
    refine List.nodup_cons.mpr ⟨?_, List.Nodup.filter _ ih⟩
    intro hw
    have hcond := (List.mem_filter.mp hw).2
    simp at hcond

theorem findIdx_nodup_get (l : List JSValue) (hnd : l.Nodup) (i s : ℕ)
    (hi : i < l.length) :
    List.findIdx? (fun x => x == l.get ⟨i, hi⟩) l s = some (s + i) := by
  induction l generalizing i s with
  | nil => exact absurd hi (Nat.not_lt_zero i)
  | cons a t ih =>
    cases i with
    | zero =>
      rw [List.findIdx?_cons]
      simp
    | succ n =>
      have hn : n < t.length := Nat.lt_of_succ_lt_succ hi
      have hget : (a :: t).get ⟨n + 1, hi⟩ = t.get ⟨n, hn⟩ := rfl
      have hmem : t.get ⟨n, hn⟩ ∈ t := t.get_mem n hn
      have hne : (a == t.get ⟨n, hn⟩) = false :=
        beq_eq_false_iff_ne.mpr
          (fun he => (List.nodup_cons.mp hnd).1 (he ▸ hmem))
      rw [List.findIdx?_cons]
      simp only [hget, hne, Bool.false_eq_true, if_false]
      rw [ih (List.nodup_cons.mp hnd).2 n (s + 1) hn]
      have harith : s + 1 + n = s + (n + 1) := by omega
      rw [harith]

theorem scalePoint_get (dom : List JSValue) (hnd : dom.Nodup) (height : ℚ)
    (i : ℕ) (hi : i < dom.length) :
    scalePoint dom height 0 (dom.get ⟨i, hi⟩) =
      some (scalePointIdx dom.length height 0 i) := by
  unfold scalePoint
  rw [show (List.findIdx? (· == dom.get ⟨i, hi⟩) dom) =
        List.findIdx? (fun x => x == dom.get ⟨i, hi⟩) dom 0 from rfl]
  rw [findIdx_nodup_get dom hnd i 0 hi]
  simp [Option.map]

theorem scalePointIdx_eval (n : ℕ) (height : ℚ) (hh : 0 < height)
    (hn : 2 ≤ n) (i : ℕ) (hi : i < n) :
    scalePointIdx n height 0 i = height - height * i / ((n : ℚ) - 1) := by
  have hmax : max 1 (n - 1) = n - 1 := max_eq_right (by omega)
  have hc1 : ((n - 1 : ℕ) : ℚ) = (n : ℚ) - 1 := by
    rw [Nat.cast_sub (by omega : 1 ≤ n), Nat.cast_one]
  have hc2 : ((n - 1 - i : ℕ) : ℚ) = (n : ℚ) - 1 - (i : ℚ) := by
    rw [Nat.cast_sub (by omega : i ≤ n - 1), hc1]
  have hne : (n : ℚ) - 1 ≠ 0 := by
    have h2 : (2 : ℚ) ≤ (n : ℚ) := by exact_mod_cast hn
    intro h0
    rw [sub_eq_zero] at h0
    rw [h0] at h2
    norm_num at h2
  simp only [scalePointIdx, if_pos hh, hmax, hc1, hc2]
  field_simp
  ring

theorem scalePointIdx_single (height : ℚ) (hh : 0 < height) :
    scalePointIdx 1 height 0 0 = height / 2 := by
  simp only [scalePointIdx, if_pos hh]
  norm_num

/-- Claim C4: for a dimension not typed numeric, the scale's domain is the
set of distinct non-missing values (same membership, no duplicates) sorted
lexicographically on their string form, and the scale maps the `i`-th
domain element to the evenly spaced position
`height - height * i / (n - 1)` across the `[height, 0]` range; a domain
with exactly one distinct value maps it to the midpoint `height / 2`. -/
theorem c4_nominal_scale (types : List (String × String)) (data : List Record)
    (height : ℚ) (dim : String)
    (htype : ¬types.lookup dim = some "numeric") (hh : 0 < height) :
    (∀ v, v ∈ uniqueSorted (columnValues data dim) ↔
      v ∈ columnValues data dim) ∧
    (uniqueSorted (columnValues data dim)).Nodup ∧
    List.Pairwise (fun a b => strLE (jsString a) (jsString b) = true)
      (uniqueSorted (columnValues data dim)) ∧
    (∀ i, ∀ hi : i < (uniqueSorted (columnValues data dim)).length,
      2 ≤ (uniqueSorted (columnValues data dim)).length →
      dimScale types data height dim
          ((uniqueSorted (columnValues data dim)).get ⟨i, hi⟩) =
        some (height - height * i /
          (((uniqueSorted (columnValues data dim)).length : ℚ) - 1))) ∧
    (∀ v, uniqueSorted (columnValues data dim) = [v] →
      dimScale types data height dim v = some (height / 2)) := by
  have hnd : (uniqueSorted (columnValues data dim)).Nodup :=
    (sortByString_perm (dedupFirst (columnValues data dim))).symm.nodup
      (nodup_dedupFirst (columnValues data dim))
  refine ⟨?_, hnd, ?_, ?_, ?_⟩
  · intro v
    exact ((sortByString_perm
        (dedupFirst (columnValues data dim))).mem_iff).trans
      (mem_dedupFirst v (columnValues data dim))
  · exact sortByString_pairwise (dedupFirst (columnValues data dim))
  · intro i hi h2
    rw [dimScale, if_neg htype, scalePoint_get _ hnd height i hi,
      scalePointIdx_eval _ height hh h2 i hi]
  · intro v hv
    rw [dimScale, if_neg htype, hv]
    have h0 : scalePoint [v] height 0 v =
        some (scalePointIdx 1 height 0 0) := by
      unfold scalePoint
      rw [List.findIdx?_cons]
      simp
    rw [h0, scalePointIdx_single height hh]

/-- Witness for C4 at a two-record dataset with nominal values
`"b"`, `"a"` (sorted domain `["a", "b"]`, height 600). -/
theorem c4_nominal_scale_witness :
    ¬([("g", "nominal")] : List (String × String)).lookup "g" =
        some "numeric" ∧
    (0 : ℚ) < 600 ∧
    List.Pairwise (fun a b => strLE (jsString a) (jsString b) = true)
      (uniqueSorted (columnValues
        [[("g", JSValue.str "b")], [("g", JSValue.str "a")]] "g")) ∧
    (∀ i, ∀ hi : i < (uniqueSorted (columnValues
        [[("g", JSValue.str "b")], [("g", JSValue.str "a")]] "g")).length,
      2 ≤ (uniqueSorted (columnValues
        [[("g", JSValue.str "b")], [("g", JSValue.str "a")]] "g")).length →
      dimScale [("g", "nominal")]
          [[("g", JSValue.str "b")], [("g", JSValue.str "a")]] 600 "g"
          ((uniqueSorted (columnValues
            [[("g", JSValue.str "b")], [("g", JSValue.str "a")]] "g")).get
              ⟨i, hi⟩) =
        some (600 - 600 * i /
          (((uniqueSorted (columnValues
            [[("g", JSValue.str "b")], [("g", JSValue.str "a")]]
              "g")).length : ℚ) - 1))) :=
  ⟨by decide, by decide,
    (c4_nominal_scale [("g", "nominal")]
      [[("g", JSValue.str "b")], [("g", JSValue.str "a")]] 600 "g"
      (by decide) (by decide)).2.2.1,
    (c4_nominal_scale [("g", "nominal")]
      [[("g", JSValue.str "b")], [("g", JSValue.str "a")]] 600 "g"
      (by decide) (by decide)).2.2.2.1⟩
